import Mathlib

/-!
Shallow embedding of sapcc/swift-storage-boot (Go).

The embedded code comprises the LUKS manager (OpenLUKS, CloseLUKS,
ScanLUKSMappings, getBackingDevicePath, CheckLUKS, FormatLUKSIfRequired)
and the single-pass mount reconciler in main().  External command
execution is modelled by explicit environments that supply each command's
stdout / success flag; every issued command is recorded in a trace
(program name, argv, stdin, flags), and every Log call is recorded as a
leveled event with the message rendered the way Go's fmt would render it.

Collaborators that are referenced by the embedded code but whose own
source is not part of the given excerpt (Classify, MarkAsBroken, the
mount controllers, ScanSwiftID) are modelled from the specification and
are marked as such in their doc comments.
-/

namespace SwiftStorage

/-- Log levels of the repository's Log function (LogDebug, LogInfo,
LogError, LogFatal); Fatal terminates the process. -/
inductive LogLevel where
  | LogDebug
  | LogInfo
  | LogError
  | LogFatal
deriving DecidableEq

/-- One emitted log line: level plus the fully rendered message. -/
structure LogEvent where
  level : LogLevel
  msg : String
deriving DecidableEq

/-- The options of the Command struct of the command runner: piped stdin,
SkipLog (suppress argument logging, used for secrets) and ExitOnError. -/
structure Command where
  Stdin : String
  SkipLog : Bool
  ExitOnError : Bool
deriving DecidableEq

/-- A recorded invocation of an external program: the Command options and
the argv list (program name first). -/
structure Invocation where
  cmd : Command
  argv : List String
deriving DecidableEq

/-- The Go DeviceType enumeration: NotScanned, Unknown, LUKS, Filesystem. -/
inductive DeviceType where
  | NotScanned
  | Unknown
  | LUKS
  | Filesystem
deriving DecidableEq

/-- The TemporaryMount sub-record of Drive; only its Name field (the
mapper / scratch-directory token) is used by the embedded code. -/
structure TemporaryMount where
  Name : String
deriving DecidableEq

/-- The Drive record.  The Go field named Type is called Type' here
because Type is a Lean keyword. -/
structure Drive where
  DevicePath : String
  MappedDevicePath : String
  Type' : DeviceType
  Broken : Bool
  TemporaryMount : TemporaryMount
  StartedOutEmpty : Bool
deriving DecidableEq

/-- One configured passphrase entry (Config.Keys element). -/
structure Key where
  Secret : String
deriving DecidableEq

/-- The possible outcomes of the content inspection performed by Classify:
it never reports NotScanned. -/
inductive ContentKind where
  | Unknown
  | LUKS
  | Filesystem
deriving DecidableEq

def ContentKind.toDeviceType : ContentKind → DeviceType
  | .Unknown => .Unknown
  | .LUKS => .LUKS
  | .Filesystem => .Filesystem

/-- Environment for the LUKS operations: the outcome of content
inspection, acceptance of the luksOpen attempt with key index i, and the
success flags of luksFormat and cryptsetup close. -/
structure LuksEnv where
  classifyOutcome : Option ContentKind
  luksOpenOk : Nat → Bool
  luksFormatOk : Bool
  closeOk : Bool

/-- Modelled from the spec: Classify (Drive Classifier, spec 4.1) is not
part of the given sources.  It returns false and leaves Type unchanged if
inspection fails; otherwise it sets Type to one of Unknown, LUKS,
Filesystem and returns true.  The result is cached: a drive whose Type is
not NotScanned is not re-inspected.  Its own external command is not part
of the recorded trace. -/
def Drive.Classify (d : Drive) (env : LuksEnv) : Drive × Bool :=
  if d.Type' ≠ DeviceType.NotScanned then (d, true)
  else
    match env.classifyOutcome with
    | none => (d, false)
    | some k => ({ d with Type' := k.toDeviceType }, true)

/-- Modelled from the spec: MarkAsBroken (Broken-Drive Quarantine, spec
4.6) is not part of the given sources.  We model its update of the Drive
record: it sets the Broken flag (idempotently).  Its external side
effects (unmounting, quarantine symlink, operator log) fall outside the
Drive record and are not modelled. -/
def Drive.MarkAsBroken (d : Drive) : Drive :=
  { d with Broken := true }

/-- The result of one embedded operation: the updated drive, the log
events emitted, the external commands issued, and whether a Fatal log
terminated the process. -/
structure OpResult where
  drive : Drive
  logs : List LogEvent
  cmds : List Invocation
  fatal : Bool
deriving DecidableEq

/-- The message of the error logged by OpenLUKS when no key is accepted.
The source passes the format string
"exec(cryptsetup luksOpen %s %s) failed: none of the configured keys was
accepted" to Log with NO further arguments, so Go's fmt renders each
missing operand literally as %!s(MISSING); neither the device path nor
the mapper name appears in the output. -/
def OpenLUKSKeysRejectedMsg : String :=
  "exec(cryptsetup luksOpen %!s(MISSING) %!s(MISSING)) failed: none of the configured keys was accepted"

/-- The key-trial loop of OpenLUKS: for each key (with its index), log
the debug line, issue cryptsetup luksOpen with the secret piped on stdin
and SkipLog set, and stop at the first accepted key.  Returns the logs,
the invocations, and the success flag. -/
def tryKeysAux (env : LuksEnv) (dev mapper : String) :
    List Key → Nat → List LogEvent × List Invocation × Bool
  | [], _ => ([], [], false)
  | k :: rest, idx =>
    let ev : LogEvent :=
      ⟨.LogDebug, "trying to luksOpen " ++ dev ++ " as " ++ mapper ++
        " with key " ++ toString idx ++ "..."⟩
    let inv : Invocation :=
      ⟨⟨k.Secret ++ "\n", true, false⟩, ["cryptsetup", "luksOpen", dev, mapper]⟩
    if env.luksOpenOk idx then ([ev], [inv], true)
    else
      let r := tryKeysAux env dev mapper rest (idx + 1)
      (ev :: r.1, inv :: r.2.1, r.2.2)

/-- OpenLUKS (part_001 lines 31-72).  keys is Config.Keys. -/
def Drive.OpenLUKS (d : Drive) (keys : List Key) (env : LuksEnv) : OpResult :=
  if d.Broken then ⟨d, [], [], false⟩
  else if d.MappedDevicePath ≠ "" then ⟨d, [], [], false⟩
  else
    match d.Classify env with
    | (d1, ok) =>
      if !ok then ⟨d1, [], [], false⟩
      else if d1.Type' ≠ DeviceType.LUKS then ⟨d1, [], [], false⟩
      else
        let mapper := d1.TemporaryMount.Name
        let r := tryKeysAux env d1.DevicePath mapper keys 0
        if !r.2.2 then
          ⟨d1.MarkAsBroken, r.1 ++ [⟨.LogError, OpenLUKSKeysRejectedMsg⟩], r.2.1, false⟩
        else
          ⟨{ d1 with MappedDevicePath := "/dev/mapper/" ++ mapper,
                     Type' := DeviceType.NotScanned },
           r.1 ++ [⟨.LogInfo, "LUKS container at " ++ d1.DevicePath ++
                      " opened as /dev/mapper/" ++ mapper⟩],
           r.2.1, false⟩

/-- Go's filepath.Base restricted to slash-separated paths: empty input
gives ".", an all-slash input gives "/", otherwise the last path element
after stripping trailing slashes. -/
def filepathBase (p : String) : String :=
  if p = "" then "."
  else
    let q := (p.toList.reverse.dropWhile (fun c => c = '/')).reverse
    if q = [] then "/"
    else String.mk ((q.reverse.takeWhile (fun c => c ≠ '/')).reverse)

/-- CloseLUKS (part_001 lines 76-88). -/
def Drive.CloseLUKS (d : Drive) (env : LuksEnv) : OpResult :=
  if d.MappedDevicePath = "" then ⟨d, [], [], false⟩
  else
    let mapperName := filepathBase d.MappedDevicePath
    let inv : Invocation := ⟨⟨"", false, false⟩, ["cryptsetup", "close", mapperName]⟩
    if env.closeOk then
      ⟨{ d with MappedDevicePath := "" },
       [⟨.LogInfo, "LUKS container " ++ d.MappedDevicePath ++ " closed"⟩],
       [inv], false⟩
    else ⟨d, [], [inv], false⟩

/-- FormatLUKSIfRequired (part_001 lines 166-201).  keys is Config.Keys;
the drive field of the result is meaningless when fatal is true. -/
def Drive.FormatLUKSIfRequired (d : Drive) (keys : List Key) (env : LuksEnv) : OpResult :=
  if d.Broken then ⟨d, [], [], false⟩
  else if d.MappedDevicePath ≠ "" then ⟨d, [], [], false⟩
  else
    match keys with
    | [] =>
      ⟨d, [⟨.LogFatal, "FormatLUKSIfRequired called on " ++ d.DevicePath ++
              ", but no keys specified!"⟩], [], true⟩
    | key :: _ =>
      match d.Classify env with
      | (d1, ok) =>
        if !ok then ⟨d1, [], [], false⟩
        else if d1.Type' ≠ DeviceType.Unknown then ⟨d1, [], [], false⟩
        else
          let ev : LogEvent :=
            ⟨.LogDebug, "running cryptsetup luksFormat " ++ d1.DevicePath ++
              " with key 0..."⟩
          let inv : Invocation :=
            ⟨⟨key.Secret ++ "\n", false, false⟩, ["cryptsetup", "luksFormat", d1.DevicePath]⟩
          if env.luksFormatOk then
            ⟨{ d1 with Type' := DeviceType.LUKS }, [ev], [inv], false⟩
          else
            ⟨d1.MarkAsBroken, [ev], [inv], false⟩

/-- Splitting a character list at every separator character (the list of
pieces is never empty; adjacent separators give empty pieces, as in Go's
strings.Split). -/
def splitByL (p : Char → Bool) : List Char → List (List Char)
  | [] => [[]]
  | c :: cs =>
    if p c then [] :: splitByL p cs
    else
      match splitByL p cs with
      | [] => [[c]]
      | h :: t => (c :: h) :: t

/-- strings.Split(s, newline), as a computable model on character
lists. -/
def splitLines (s : String) : List String :=
  (splitByL (fun c => c = Char.ofNat 10) s.toList).map String.mk

/-- Dropping whitespace from both ends of a character list
(strings.TrimSpace). -/
def trimL (l : List Char) : List Char :=
  ((l.dropWhile Char.isWhitespace).reverse.dropWhile Char.isWhitespace).reverse

/-- strings.TrimSpace, as a computable model on character lists. -/
def goTrimSpace (s : String) : String :=
  String.mk (trimL s.toList)

/-- strings.Fields: splits on runs of whitespace, dropping empty
pieces. -/
def goFields (s : String) : List String :=
  ((splitByL Char.isWhitespace s.toList).filter fun t => t ≠ []).map String.mk

/-- One line matched against the regular expression
(?m)^\s*device:\s*(\S+)\s*$ : after trimming surrounding whitespace the
line must start with "device:" and the remainder, trimmed, must be one
nonempty whitespace-free token, which is the captured group. -/
def deviceLineMatch (line : String) : Option String :=
  let t := trimL line.toList
  if t.take 7 = "device:".toList then
    let r := trimL (t.drop 7)
    if r ≠ [] ∧ r.all (fun c => ¬ c.isWhitespace) then some (String.mk r) else none
  else none

/-- FindStringSubmatch of the multiline backingDeviceRx: the capture of
the first line of the text that matches. -/
def firstDeviceLine (text : String) : Option String :=
  (splitLines text).findSome? deviceLineMatch

/-- The mapping names appearing in the dmsetup ls output: the first
whitespace-separated field of every line that has one. -/
def listedNames (out : String) : List String :=
  (splitLines out).filterMap fun l => (goFields l).head?

/-- Environment for ScanLUKSMappings: the stdout of
dmsetup ls --target=crypt and, per mapping name, the stdout of
cryptsetup status (both commands run with ExitOnError, so their own
failure is handled by the runner and both are modelled as producing
output). -/
structure ScanEnv where
  dmsetupOut : String
  statusOut : String → String

/-- The Go map, as an association list; insertion overwrites the entry
with the same key (entry order is not observable through lookup). -/
def mapInsert (m : List (String × String)) (k v : String) : List (String × String) :=
  m.filter (fun q => q.1 ≠ k) ++ [(k, v)]

def mapLookup (m : List (String × String)) (k : String) : Option String :=
  (m.find? fun q => q.1 = k).map fun q => q.2

/-- Go map indexing, which yields "" for a missing key. -/
def mapLookupD (m : List (String × String)) (k : String) : String :=
  (mapLookup m k).getD ""

/-- The invocation cryptsetup status name issued by getBackingDevicePath
(ExitOnError set). -/
def statusInv (mapName : String) : Invocation :=
  ⟨⟨"", false, true⟩, ["cryptsetup", "status", mapName]⟩

/-- The invocation dmsetup ls --target=crypt issued by ScanLUKSMappings
(ExitOnError set). -/
def dmsetupInv : Invocation :=
  ⟨⟨"", false, true⟩, ["dmsetup", "ls", "--target=crypt"]⟩

/-- getBackingDevicePath (part_001 lines 119-128): queries cryptsetup
status and extracts the backing device from the device: line; none means
the Fatal path was taken. -/
def getBackingDevicePath (env : ScanEnv) (mapName : String) : Option String :=
  firstDeviceLine (env.statusOut mapName)

/-- The result of ScanLUKSMappings: the map (none when a Fatal log
terminated the process), the log events, and the issued commands. -/
structure ScanResult where
  mappings : Option (List (String × String))
  logs : List LogEvent
  cmds : List Invocation

/-- The line loop of ScanLUKSMappings, carrying the Go map being built:
lines without fields are skipped; for every mapping name the status query
is issued, and a status output without a device: line is Fatal, ending
the process (no further line is processed). -/
def scanLines (env : ScanEnv) (acc : List (String × String)) :
    List String → Option (List (String × String)) × List LogEvent × List Invocation
  | [] => (some acc, [], [])
  | line :: rest =>
    match (goFields line).head? with
    | none => scanLines env acc rest
    | some mapName =>
      match getBackingDevicePath env mapName with
      | none =>
        (none,
         [⟨.LogFatal, "cannot find backing device for /dev/mapper/" ++ mapName⟩],
         [statusInv mapName])
      | some p =>
        let r := scanLines env (mapInsert acc p mapName) rest
        (r.1, r.2.1, statusInv mapName :: r.2.2)

/-- ScanLUKSMappings (part_001 lines 92-114). -/
def ScanLUKSMappings (env : ScanEnv) : ScanResult :=
  if goTrimSpace env.dmsetupOut = "No devices found" then ⟨some [], [], [dmsetupInv]⟩
  else
    let r := scanLines env [] (splitLines env.dmsetupOut)
    ⟨r.1, r.2.1, dmsetupInv :: r.2.2⟩

/-- CheckLUKS (part_001 lines 133-163).  activeMappings is the map from
backing device path to mapping name produced by ScanLUKSMappings; Go map
indexing yields "" for an absent key. -/
def Drive.CheckLUKS (d : Drive) (activeMappings : List (String × String)) : OpResult :=
  let actualMapName := mapLookupD activeMappings d.DevicePath
  if actualMapName = "" then
    if d.MappedDevicePath ≠ "" then
      ⟨d.MarkAsBroken,
       [⟨.LogError, "LUKS container in " ++ d.DevicePath ++ " should be open at " ++
          d.MappedDevicePath ++ ", but is not"⟩], [], false⟩
    else ⟨d, [], [], false⟩
  else
    let actualMappedPath := "/dev/mapper/" ++ actualMapName
    if d.MappedDevicePath = "" then
      ⟨{ d with MappedDevicePath := actualMappedPath, StartedOutEmpty := false },
       [⟨.LogInfo, "discovered " ++ d.DevicePath ++ " to be mapped to " ++
          actualMappedPath ++ " already"⟩], [], false⟩
    else if d.MappedDevicePath = actualMappedPath then ⟨d, [], [], false⟩
    else
      ⟨d.MarkAsBroken,
       [⟨.LogError, "LUKS container in " ++ d.DevicePath ++ " should be open at " ++
          d.MappedDevicePath ++ ", but is actually open at " ++ actualMappedPath⟩],
       [], false⟩

/-- Environment for the reconciliation pass of main (main.go lines
82-129).  The collaborators MountDevice, ScanMountPoints, ScanSwiftID,
ExecuteFinalMount and ExecSimple are outside the given sources; their
outcomes are supplied here.  mountsByID lists the (swiftID, device) pairs
returned by ScanSwiftID (Go map iteration order is arbitrary; the model
fixes one order). -/
structure MainEnv where
  drivePaths : List String
  mountDevice : String → Except String String
  rescan : Except String Unit
  mountsByID : List (String × String)
  scanFailed : Bool
  finalMount : String → String → Except String Unit
  touch : Except String Unit

/-- The result of the pass: the exit code (none when a Fatal log
terminated the process early), the log events, the devices passed to
MountDevice, the (swiftID, device) pairs passed to ExecuteFinalMount, and
whether the readiness marker /srv/node/ready was touched. -/
structure MainResult where
  exitCode : Option Nat
  logs : List LogEvent
  mountAttempts : List String
  finalAttempts : List (String × String)
  touched : Bool

/-- The mount loop of main (lines 84-92): every drive path is attempted;
failures are logged as errors and set the failure flag but do not stop
the loop.  Returns attempted device paths, obtained mount paths, logs,
and the failure flag. -/
def mountLoop (env : MainEnv) :
    List String → List String × List String × List LogEvent × Bool
  | [] => ([], [], [], false)
  | p :: rest =>
    let r := mountLoop env rest
    match env.mountDevice ("/" ++ p) with
    | .ok mp => (("/" ++ p) :: r.1, mp :: r.2.1, r.2.2.1, r.2.2.2)
    | .error e =>
      (("/" ++ p) :: r.1, r.2.1, LogEvent.mk .LogError e :: r.2.2.1, true)

/-- The final-mount loop of main (lines 108-116): every pair is
attempted; success logs an info line, failure logs an error and sets the
failure flag without stopping the loop. -/
def finalLoop (env : MainEnv) :
    List (String × String) → List (String × String) × List LogEvent × Bool
  | [] => ([], [], false)
  | (swiftID, device) :: rest =>
    let r := finalLoop env rest
    match env.finalMount device swiftID with
    | .ok _ =>
      ((swiftID, device) :: r.1,
       LogEvent.mk .LogInfo (device ++ " is mounted on /srv/node/" ++ swiftID) :: r.2.1,
       r.2.2)
    | .error e =>
      ((swiftID, device) :: r.1, LogEvent.mk .LogError e :: r.2.1, true)

/-- The reconciliation pass of main (main.go lines 82-129): mount loop,
rescan of the mount table when anything was mounted (Fatal on failure),
identity scan (its collision logging is modelled from the spec, 4.4,
since ScanSwiftID is outside the given sources), final-mount loop, touch
of /srv/node/ready, and the exit code derived from the aggregate failure
flag. -/
def mainPass (env : MainEnv) : MainResult :=
  let m := mountLoop env env.drivePaths
  let rescanErr : Option String :=
    if m.2.1.length > 0 then
      match env.rescan with
      | .ok _ => none
      | .error e => some e
    else none
  match rescanErr with
  | some e =>
    ⟨none, m.2.2.1 ++ [⟨.LogFatal, "list mount points: " ++ e⟩], m.1, [], false⟩
  | none =>
    let scanLogs : List LogEvent :=
      if env.scanFailed then [⟨.LogError, "swift-id collision detected"⟩] else []
    let f := finalLoop env env.mountsByID
    let touchStep : List LogEvent × Bool :=
      match env.touch with
      | .ok _ => ([], false)
      | .error e => ([⟨.LogError, "touch /srv/node/ready: " ++ e⟩], true)
    let failed := m.2.2.2 || env.scanFailed || f.2.2 || touchStep.2
    let lsEnd : List LogEvent :=
      if failed then [⟨.LogInfo, "completed with errors, see above"⟩] else []
    ⟨some (if failed then 1 else 0),
     m.2.2.1 ++ scanLogs ++ f.2.1 ++ touchStep.1 ++ lsEnd,
     m.1, f.1, true⟩

/-- The number of keys the trial loop consumes, starting at index idx:
everything up to and including the first accepted key, or the whole list
when no key is accepted. -/
def triedCount (env : LuksEnv) : List Key → Nat → Nat
  | [], _ => 0
  | _ :: rest, idx => if env.luksOpenOk idx then 1 else triedCount env rest (idx + 1) + 1

theorem tryKeysAux_stdins (env : LuksEnv) (dev mapper : String) :
    ∀ (ks : List Key) (idx : Nat),
      (tryKeysAux env dev mapper ks idx).2.1.map (fun i => i.cmd.Stdin) =
        (ks.take (triedCount env ks idx)).map (fun k => k.Secret ++ "\n")
  | [], idx => by simp [tryKeysAux, triedCount]
  | k :: rest, idx => by
    by_cases h : env.luksOpenOk idx
    · simp [tryKeysAux, triedCount, h]
    · simp [tryKeysAux, triedCount, h,
        tryKeysAux_stdins env dev mapper rest (idx + 1)]

theorem triedCount_rejected (env : LuksEnv) :
    ∀ (ks : List Key) (idx j : Nat), j + 1 < triedCount env ks idx →
      env.luksOpenOk (idx + j) = false
  | [], idx, j => by simp [triedCount]
  | k :: rest, idx, j => by
    by_cases h : env.luksOpenOk idx
    · simp [triedCount, h]
    · intro hj
      simp [triedCount, h] at hj
      cases j with
      | zero => simpa using h
      | succ j' =>
        have hrec := triedCount_rejected env rest (idx + 1) j' (by omega)
        rw [show idx + (j' + 1) = (idx + 1) + j' by omega]
        exact hrec

theorem tryKeysAux_success_iff (env : LuksEnv) (dev mapper : String) :
    ∀ (ks : List Key) (idx : Nat),
      (tryKeysAux env dev mapper ks idx).2.2 = true ↔
        ∃ j, j < ks.length ∧ env.luksOpenOk (idx + j) = true
  | [], idx => by simp [tryKeysAux]
  | k :: rest, idx => by
    by_cases h : env.luksOpenOk idx
    · constructor
      · intro _
        exact ⟨0, by simp, by simpa using h⟩
      · intro _
        simp [tryKeysAux, h]
    · rw [show (tryKeysAux env dev mapper (k :: rest) idx).2.2 =
          (tryKeysAux env dev mapper rest (idx + 1)).2.2 by simp [tryKeysAux, h]]
      rw [tryKeysAux_success_iff env dev mapper rest (idx + 1)]
      constructor
      · rintro ⟨j, hj, hok⟩
        exact ⟨j + 1, by simpa using hj, by rwa [show idx + (j + 1) = (idx + 1) + j by omega]⟩
      · rintro ⟨j, hj, hok⟩
        cases j with
        | zero =>
          rw [show idx + 0 = idx by omega] at hok
          exact absurd hok (by simpa using h)
        | succ j' =>
          exact ⟨j', by simp at hj; omega,
            by rwa [show (idx + 1) + j' = idx + (j' + 1) by omega]⟩

theorem tryKeysAux_logs_debug (env : LuksEnv) (dev mapper : String) :
    ∀ (ks : List Key) (idx : Nat) (e : LogEvent),
      e ∈ (tryKeysAux env dev mapper ks idx).1 → e.level = LogLevel.LogDebug
  | [], idx, e => by simp [tryKeysAux]
  | k :: rest, idx, e => by
    by_cases h : env.luksOpenOk idx
    · intro he
      simp [tryKeysAux, h] at he
      rw [he]
    · intro he
      simp only [tryKeysAux, h, Bool.false_eq_true, if_false, List.mem_cons] at he
      rcases he with he | he
      · rw [he]
      · exact tryKeysAux_logs_debug env dev mapper rest (idx + 1) e he

theorem tryKeysAux_skipLog (env : LuksEnv) (dev mapper : String) :
    ∀ (ks : List Key) (idx : Nat) (inv : Invocation),
      inv ∈ (tryKeysAux env dev mapper ks idx).2.1 → inv.cmd.SkipLog = true
  | [], idx, inv => by simp [tryKeysAux]
  | k :: rest, idx, inv => by
    by_cases h : env.luksOpenOk idx
    · intro hi
      simp [tryKeysAux, h] at hi
      rw [hi]
    · intro hi
      simp only [tryKeysAux, h, Bool.false_eq_true, if_false, List.mem_cons] at hi
      rcases hi with hi | hi
      · rw [hi]
      · exact tryKeysAux_skipLog env dev mapper rest (idx + 1) inv hi

theorem tryKeysAux_argv (env : LuksEnv) (dev mapper : String) :
    ∀ (ks : List Key) (idx : Nat),
      (tryKeysAux env dev mapper ks idx).2.1.map (fun i => i.argv) =
        List.replicate (triedCount env ks idx) ["cryptsetup", "luksOpen", dev, mapper]
  | [], idx => by simp [tryKeysAux, triedCount]
  | k :: rest, idx => by
    by_cases h : env.luksOpenOk idx
    · simp [tryKeysAux, triedCount, h]
    · simp [tryKeysAux, triedCount, h,
        tryKeysAux_argv env dev mapper rest (idx + 1), List.replicate_succ]

theorem triedCount_length_congr (env : LuksEnv) :
    ∀ (ks1 ks2 : List Key) (idx : Nat), ks1.length = ks2.length →
      triedCount env ks1 idx = triedCount env ks2 idx
  | [], [], _, _ => rfl
  | [], _ :: _, _, h => by simp at h
  | _ :: _, [], _, h => by simp at h
  | _ :: r1, _ :: r2, idx, h => by
    by_cases ho : env.luksOpenOk idx
    · simp [triedCount, ho]
    · simp only [triedCount, ho, Bool.false_eq_true, if_false]
      rw [triedCount_length_congr env r1 r2 (idx + 1) (by simpa using h)]

/-- Content inspection that fails leaves the drive unchanged. -/
theorem Classify_fail_unchanged (d : Drive) (env : LuksEnv)
    (h : (d.Classify env).2 = false) : (d.Classify env).1 = d := by
  unfold Drive.Classify at *
  by_cases ht : d.Type' ≠ DeviceType.NotScanned
  · simp [ht] at h
  · cases hc : env.classifyOutcome with
    | none => simp [ht, hc]
    | some k => simp [ht, hc] at h

/-- A nonempty prefix keeps a string concatenation nonempty. -/
theorem mapper_path_ne_empty (n : String) : ("/dev/mapper/" ++ n : String) ≠ "" := by
  intro h
  have hl := congrArg String.length h
  rw [String.length_append] at hl
  have h12 : ("/dev/mapper/" : String).length = 12 := rfl
  have h0 : ("" : String).length = 0 := rfl
  omega

/-- C1: CheckLUKS, on the map returned by ScanLUKSMappings, implements the
five-case reconciliation: no kernel mapping but a non-empty belief logs
an error and marks the drive Broken; no mapping and no belief leaves the
drive unchanged; a mapping equal to the belief leaves the drive
unchanged; a mapping with no prior belief adopts the mapper path, logs an
info event and clears StartedOutEmpty; a mapping different from a
non-empty belief logs an error and marks the drive Broken. -/
theorem CheckLUKS_five_cases (d : Drive) (m : List (String × String)) :
    (mapLookupD m d.DevicePath = "" → d.MappedDevicePath ≠ "" →
      (d.CheckLUKS m).drive = d.MarkAsBroken ∧
      (∃ e ∈ (d.CheckLUKS m).logs, e.level = LogLevel.LogError)) ∧
    (mapLookupD m d.DevicePath = "" → d.MappedDevicePath = "" →
      (d.CheckLUKS m).drive = d ∧ (d.CheckLUKS m).logs = []) ∧
    (∀ n, mapLookupD m d.DevicePath = n → n ≠ "" →
      d.MappedDevicePath = "/dev/mapper/" ++ n →
      (d.CheckLUKS m).drive = d ∧ (d.CheckLUKS m).logs = []) ∧
    (∀ n, mapLookupD m d.DevicePath = n → n ≠ "" →
      d.MappedDevicePath = "" →
      (d.CheckLUKS m).drive =
        { d with MappedDevicePath := "/dev/mapper/" ++ n, StartedOutEmpty := false } ∧
      (∃ e ∈ (d.CheckLUKS m).logs, e.level = LogLevel.LogInfo)) ∧
    (∀ n, mapLookupD m d.DevicePath = n → n ≠ "" →
      d.MappedDevicePath ≠ "" → d.MappedDevicePath ≠ "/dev/mapper/" ++ n →
      (d.CheckLUKS m).drive = d.MarkAsBroken ∧
      (∃ e ∈ (d.CheckLUKS m).logs, e.level = LogLevel.LogError)) := by
  refine ⟨?_, ?_, ?_, ?_, ?_⟩
  · intro h1 h2
    simp [Drive.CheckLUKS, h1, h2]
  · intro h1 h2
    simp [Drive.CheckLUKS, h1, h2]
  · intro n h1 hn h2
    have hne := mapper_path_ne_empty n
    simp [Drive.CheckLUKS, h1, hn, h2, hne]
  · intro n h1 hn h2
    simp [Drive.CheckLUKS, h1, hn, h2]
  · intro n h1 hn h2 h3
    simp [Drive.CheckLUKS, h1, hn, h2, h3]

/-- Witness for CheckLUKS_five_cases: the discovery case at a concrete
drive and mapping table. -/
theorem CheckLUKS_five_cases_witness :
    (Drive.CheckLUKS ⟨"/dev/sdb", "", DeviceType.NotScanned, false, ⟨"tok"⟩, true⟩
        [("/dev/sdb", "tok")]).drive =
      ⟨"/dev/sdb", "/dev/mapper/tok", DeviceType.NotScanned, false, ⟨"tok"⟩, false⟩ := by
  have h := (CheckLUKS_five_cases
      ⟨"/dev/sdb", "", DeviceType.NotScanned, false, ⟨"tok"⟩, true⟩
      [("/dev/sdb", "tok")]).2.2.2.1 "tok" (by decide) (by decide) rfl
  exact h.1

/-- C10: CheckLUKS reconciles regardless of the Broken flag: a broken
drive with an active kernel mapping and no prior belief still has its
MappedDevicePath adopted and StartedOutEmpty cleared, and stays Broken. -/
theorem CheckLUKS_ignores_Broken (d : Drive) (m : List (String × String)) (n : String)
    (hb : d.Broken = true) (h1 : mapLookupD m d.DevicePath = n) (hn : n ≠ "")
    (h2 : d.MappedDevicePath = "") :
    (d.CheckLUKS m).drive =
      { d with MappedDevicePath := "/dev/mapper/" ++ n, StartedOutEmpty := false } ∧
    (d.CheckLUKS m).drive.Broken = true := by
  have hd : (d.CheckLUKS m).drive =
      { d with MappedDevicePath := "/dev/mapper/" ++ n, StartedOutEmpty := false } := by
    simp [Drive.CheckLUKS, h1, hn, h2]
  refine ⟨hd, ?_⟩
  rw [hd]
  exact hb

/-- Witness for CheckLUKS_ignores_Broken at a concrete broken drive. -/
theorem CheckLUKS_ignores_Broken_witness :
    (Drive.CheckLUKS ⟨"/dev/sdc", "", DeviceType.NotScanned, true, ⟨"tok"⟩, true⟩
        [("/dev/sdc", "cmap")]).drive =
      ⟨"/dev/sdc", "/dev/mapper/cmap", DeviceType.NotScanned, true, ⟨"tok"⟩, false⟩ := by
  have h := CheckLUKS_ignores_Broken
      ⟨"/dev/sdc", "", DeviceType.NotScanned, true, ⟨"tok"⟩, true⟩
      [("/dev/sdc", "cmap")] "cmap" rfl (by decide) (by decide) rfl
  exact h.1

/-- C8: CloseLUKS is a no-op when MappedDevicePath is empty; otherwise it
issues exactly one close command whose mapper name is derived from the
mapped path; on success it clears MappedDevicePath and logs, on failure
it leaves the drive entirely unchanged. -/
theorem CloseLUKS_spec (d : Drive) (env : LuksEnv) :
    (d.MappedDevicePath = "" →
      (d.CloseLUKS env).drive = d ∧ (d.CloseLUKS env).cmds = [] ∧
      (d.CloseLUKS env).logs = []) ∧
    (d.MappedDevicePath ≠ "" →
      (d.CloseLUKS env).cmds =
        [⟨⟨"", false, false⟩,
          ["cryptsetup", "close", filepathBase d.MappedDevicePath]⟩] ∧
      (env.closeOk = true →
        (d.CloseLUKS env).drive = { d with MappedDevicePath := "" } ∧
        (∃ e ∈ (d.CloseLUKS env).logs, e.level = LogLevel.LogInfo)) ∧
      (env.closeOk = false →
        (d.CloseLUKS env).drive = d ∧ (d.CloseLUKS env).logs = [])) := by
  constructor
  · intro h
    simp [Drive.CloseLUKS, h]
  · intro h
    refine ⟨?_, ?_, ?_⟩
    · cases hc : env.closeOk <;> simp [Drive.CloseLUKS, h, hc]
    · intro hc
      simp [Drive.CloseLUKS, h, hc]
    · intro hc
      simp [Drive.CloseLUKS, h, hc]

/-- Witness for CloseLUKS_spec: the retry-later case at a concrete drive
whose close command fails. -/
theorem CloseLUKS_spec_witness :
    (Drive.CloseLUKS ⟨"/dev/sdb", "/dev/mapper/tok", DeviceType.NotScanned, false, ⟨"tok"⟩, false⟩
        ⟨none, fun _ => false, false, false⟩).drive =
      ⟨"/dev/sdb", "/dev/mapper/tok", DeviceType.NotScanned, false, ⟨"tok"⟩, false⟩ ∧
    (Drive.CloseLUKS ⟨"/dev/sdb", "/dev/mapper/tok", DeviceType.NotScanned, false, ⟨"tok"⟩, false⟩
        ⟨none, fun _ => false, false, false⟩).cmds =
      [⟨⟨"", false, false⟩, ["cryptsetup", "close", "tok"]⟩] := by
  have h := (CloseLUKS_spec
      ⟨"/dev/sdb", "/dev/mapper/tok", DeviceType.NotScanned, false, ⟨"tok"⟩, false⟩
      ⟨none, fun _ => false, false, false⟩).2 (by decide)
  exact ⟨(h.2.2 rfl).1, by rw [h.1]; decide⟩

/-- C2 (counterexample): on a not-broken, unmapped drive whose content
inspection classifies it as a filesystem, OpenLUKS issues no command but
the drive record is NOT unchanged: Classify caches the classification in
Type, so the claimed no-op mutates the drive. -/
theorem OpenLUKS_noop_counterexample :
    (Drive.OpenLUKS ⟨"/dev/sda", "", DeviceType.NotScanned, false, ⟨"tok"⟩, false⟩
        [⟨"s"⟩] ⟨some ContentKind.Filesystem, fun _ => false, false, false⟩).cmds = [] ∧
    (Drive.OpenLUKS ⟨"/dev/sda", "", DeviceType.NotScanned, false, ⟨"tok"⟩, false⟩
        [⟨"s"⟩] ⟨some ContentKind.Filesystem, fun _ => false, false, false⟩).drive ≠
      ⟨"/dev/sda", "", DeviceType.NotScanned, false, ⟨"tok"⟩, false⟩ := by
  decide

/-- C2 (amended): OpenLUKS issues no container-open command and emits no
log when the drive is Broken, already mapped, Classify fails, or the
classified Type is not LUKS; in the first three of those cases the drive
is unchanged, and in the not-LUKS case the only change is the Type cached
by Classify itself.  When some configured key is accepted it sets
MappedDevicePath to /dev/mapper/(mapper name) and resets Type to
NotScanned; when every configured key is rejected it logs exactly one
combined error and marks the drive Broken. -/
theorem OpenLUKS_spec (d : Drive) (keys : List Key) (env : LuksEnv) :
    (d.Broken = true →
      (d.OpenLUKS keys env).drive = d ∧ (d.OpenLUKS keys env).cmds = [] ∧
      (d.OpenLUKS keys env).logs = []) ∧
    (d.Broken = false → d.MappedDevicePath ≠ "" →
      (d.OpenLUKS keys env).drive = d ∧ (d.OpenLUKS keys env).cmds = [] ∧
      (d.OpenLUKS keys env).logs = []) ∧
    (d.Broken = false → d.MappedDevicePath = "" → (d.Classify env).2 = false →
      (d.OpenLUKS keys env).drive = d ∧ (d.OpenLUKS keys env).cmds = [] ∧
      (d.OpenLUKS keys env).logs = []) ∧
    (d.Broken = false → d.MappedDevicePath = "" → (d.Classify env).2 = true →
      (d.Classify env).1.Type' ≠ DeviceType.LUKS →
      (d.OpenLUKS keys env).drive = (d.Classify env).1 ∧
      (d.OpenLUKS keys env).cmds = [] ∧ (d.OpenLUKS keys env).logs = []) ∧
    (d.Broken = false → d.MappedDevicePath = "" → (d.Classify env).2 = true →
      (d.Classify env).1.Type' = DeviceType.LUKS →
      (∃ j, j < keys.length ∧ env.luksOpenOk j = true) →
      (d.OpenLUKS keys env).drive.MappedDevicePath =
        "/dev/mapper/" ++ (d.Classify env).1.TemporaryMount.Name ∧
      (d.OpenLUKS keys env).drive.Type' = DeviceType.NotScanned) ∧
    (d.Broken = false → d.MappedDevicePath = "" → (d.Classify env).2 = true →
      (d.Classify env).1.Type' = DeviceType.LUKS →
      (∀ j, j < keys.length → env.luksOpenOk j = false) →
      (d.OpenLUKS keys env).drive.Broken = true ∧
      (d.OpenLUKS keys env).logs.countP
        (fun e => decide (e.level = LogLevel.LogError)) = 1) := by
  rcases hcl : d.Classify env with ⟨d1, ok⟩
  refine ⟨?_, ?_, ?_, ?_, ?_, ?_⟩
  · intro hb
    simp [Drive.OpenLUKS, hb]
  · intro hb hm
    simp [Drive.OpenLUKS, hb, hm]
  · intro hb hm hc
    simp at hc
    have hd1 : d1 = d := by
      have h2 := Classify_fail_unchanged d env (by rw [hcl]; simpa using hc)
      rw [hcl] at h2
      simpa using h2
    simp [Drive.OpenLUKS, hb, hm, hcl, hc, hd1]
  · intro hb hm hc ht
    simp at hc ht
    simp [Drive.OpenLUKS, hb, hm, hcl, hc, ht]
  · intro hb hm hc ht hacc
    simp at hc ht
    have hsucc : (tryKeysAux env d1.DevicePath d1.TemporaryMount.Name keys 0).2.2 = true := by
      rw [tryKeysAux_success_iff]
      rcases hacc with ⟨j, hj, hok⟩
      exact ⟨j, hj, by simpa using hok⟩
    simp [Drive.OpenLUKS, hb, hm, hcl, hc, ht, hsucc]
  · intro hb hm hc ht hrej
    simp at hc ht
    have hfail : (tryKeysAux env d1.DevicePath d1.TemporaryMount.Name keys 0).2.2 = false := by
      rw [Bool.eq_false_iff]
      intro hs
      rw [tryKeysAux_success_iff] at hs
      rcases hs with ⟨j, hj, hok⟩
      rw [Nat.zero_add] at hok
      rw [hrej j hj] at hok
      simp at hok
    constructor
    · simp [Drive.OpenLUKS, hb, hm, hcl, hc, ht, hfail, Drive.MarkAsBroken]
    · have hdbg := tryKeysAux_logs_debug env d1.DevicePath d1.TemporaryMount.Name keys 0
      rw [show (d.OpenLUKS keys env).logs =
          (tryKeysAux env d1.DevicePath d1.TemporaryMount.Name keys 0).1 ++
            [⟨LogLevel.LogError, OpenLUKSKeysRejectedMsg⟩] by
        simp [Drive.OpenLUKS, hb, hm, hcl, hc, ht, hfail]]
      rw [List.countP_append, List.countP_eq_zero.mpr]
      · simp [List.countP_cons]
      · intro e he
        rw [hdbg e he]
        simp


/-- Witness for OpenLUKS_spec: the all-keys-rejected case at a concrete
drive: the drive ends Broken and exactly one error is logged. -/
theorem OpenLUKS_spec_witness :
    (Drive.OpenLUKS ⟨"/dev/sdb", "", DeviceType.LUKS, false, ⟨"tok"⟩, false⟩
        [⟨"s1"⟩, ⟨"s2"⟩] ⟨none, fun _ => false, false, false⟩).drive.Broken = true ∧
    (Drive.OpenLUKS ⟨"/dev/sdb", "", DeviceType.LUKS, false, ⟨"tok"⟩, false⟩
        [⟨"s1"⟩, ⟨"s2"⟩] ⟨none, fun _ => false, false, false⟩).logs.countP
      (fun e => decide (e.level = LogLevel.LogError)) = 1 :=
  (OpenLUKS_spec ⟨"/dev/sdb", "", DeviceType.LUKS, false, ⟨"tok"⟩, false⟩
      [⟨"s1"⟩, ⟨"s2"⟩] ⟨none, fun _ => false, false, false⟩).2.2.2.2.2
    rfl rfl (by decide) (by decide) (by decide)

/-- Case characterization of FormatLUKSIfRequired, used by several
theorems below. -/
theorem Format_result (d : Drive) (keys : List Key) (env : LuksEnv) :
    (d.Broken = true → d.FormatLUKSIfRequired keys env = ⟨d, [], [], false⟩) ∧
    (d.Broken = false → d.MappedDevicePath ≠ "" →
      d.FormatLUKSIfRequired keys env = ⟨d, [], [], false⟩) ∧
    (d.Broken = false → d.MappedDevicePath = "" → keys = [] →
      d.FormatLUKSIfRequired keys env =
        ⟨d, [⟨LogLevel.LogFatal, "FormatLUKSIfRequired called on " ++ d.DevicePath ++
            ", but no keys specified!"⟩], [], true⟩) ∧
    (∀ k rest, keys = k :: rest → d.Broken = false → d.MappedDevicePath = "" →
      ((d.Classify env).2 = false →
        d.FormatLUKSIfRequired keys env = ⟨(d.Classify env).1, [], [], false⟩) ∧
      ((d.Classify env).2 = true → (d.Classify env).1.Type' ≠ DeviceType.Unknown →
        d.FormatLUKSIfRequired keys env = ⟨(d.Classify env).1, [], [], false⟩) ∧
      ((d.Classify env).2 = true → (d.Classify env).1.Type' = DeviceType.Unknown →
        d.FormatLUKSIfRequired keys env =
          ⟨if env.luksFormatOk then { (d.Classify env).1 with Type' := DeviceType.LUKS }
            else (d.Classify env).1.MarkAsBroken,
           [⟨LogLevel.LogDebug, "running cryptsetup luksFormat " ++
              (d.Classify env).1.DevicePath ++ " with key 0..."⟩],
           [⟨⟨k.Secret ++ "\n", false, false⟩,
             ["cryptsetup", "luksFormat", (d.Classify env).1.DevicePath]⟩], false⟩)) := by
  refine ⟨?_, ?_, ?_, ?_⟩
  · intro hb
    simp [Drive.FormatLUKSIfRequired, hb]
  · intro hb hm
    simp [Drive.FormatLUKSIfRequired, hb, hm]
  · intro hb hm hk
    simp [Drive.FormatLUKSIfRequired, hb, hm, hk]
  · intro k rest hk hb hm
    rcases hcl : d.Classify env with ⟨d1, ok⟩
    refine ⟨?_, ?_, ?_⟩
    · intro hc
      simp at hc
      simp [Drive.FormatLUKSIfRequired, hb, hm, hk, hcl, hc]
    · intro hc ht
      simp at hc ht
      simp [Drive.FormatLUKSIfRequired, hb, hm, hk, hcl, hc, ht]
    · intro hc ht
      simp at hc ht
      cases hfmt : env.luksFormatOk <;>
        simp [Drive.FormatLUKSIfRequired, hb, hm, hk, hcl, hc, ht, hfmt]

/-- C3: key precedence.  On a drive that reaches the key-trial stage,
the luksOpen attempts of OpenLUKS pipe the configured secrets strictly in
list order, the sequence ends with the first accepted key (every attempt
before the last one was rejected), and every format command that
FormatLUKSIfRequired ever issues (for any drive and environment) carries
the first configured key, never any other. -/
theorem key_precedence (d : Drive) (keys : List Key) (env : LuksEnv)
    (hb : d.Broken = false) (hm : d.MappedDevicePath = "")
    (hc : (d.Classify env).2 = true)
    (ht : (d.Classify env).1.Type' = DeviceType.LUKS) :
    ((d.OpenLUKS keys env).cmds.map (fun i => i.cmd.Stdin) =
      (keys.take (triedCount env keys 0)).map (fun k => k.Secret ++ "\n")) ∧
    (∀ j, j + 1 < triedCount env keys 0 → env.luksOpenOk j = false) ∧
    (∀ (d' : Drive) (env' : LuksEnv) (inv : Invocation),
      inv ∈ (d'.FormatLUKSIfRequired keys env').cmds →
      ∃ k, keys.head? = some k ∧ inv.cmd.Stdin = k.Secret ++ "\n") := by
  rcases hcl : d.Classify env with ⟨d1, ok⟩
  rw [hcl] at hc ht
  simp at hc ht
  refine ⟨?_, ?_, ?_⟩
  · rw [show (d.OpenLUKS keys env).cmds =
        (tryKeysAux env d1.DevicePath d1.TemporaryMount.Name keys 0).2.1 by
      by_cases hs : (tryKeysAux env d1.DevicePath d1.TemporaryMount.Name keys 0).2.2 <;>
        simp [Drive.OpenLUKS, hb, hm, hcl, hc, ht, hs]]
    exact tryKeysAux_stdins env d1.DevicePath d1.TemporaryMount.Name keys 0
  · intro j hj
    have hr := triedCount_rejected env keys 0 j hj
    simpa using hr
  · intro d' env' inv hi
    have hfr := Format_result d' keys env'
    by_cases hb' : d'.Broken
    · rw [hfr.1 hb'] at hi
      simp at hi
    · by_cases hm' : d'.MappedDevicePath = ""
      · cases hks : keys with
        | nil =>
          rw [hfr.2.2.1 (by simpa using hb') hm' hks] at hi
          simp at hi
        | cons k rest =>
          have hc4 := hfr.2.2.2 k rest hks (by simpa using hb') hm'
          by_cases hc' : (d'.Classify env').2 = true
          · by_cases ht' : (d'.Classify env').1.Type' = DeviceType.Unknown
            · rw [hc4.2.2 hc' ht'] at hi
              simp at hi
              refine ⟨k, by simp [hks], ?_⟩
              rw [hi]
            · rw [hc4.2.1 hc' ht'] at hi
              simp at hi
          · rw [hc4.1 (by simpa using hc')] at hi
            simp at hi
      · rw [hfr.2.1 (by simpa using hb') hm'] at hi
        simp at hi

/-- Witness for key_precedence: two keys, the second accepted: both are
piped in order and the first attempt was rejected; a fresh unknown drive
is formatted with the first key. -/
theorem key_precedence_witness :
    (Drive.OpenLUKS ⟨"/dev/sdb", "", DeviceType.LUKS, false, ⟨"tok"⟩, false⟩
        [⟨"s1"⟩, ⟨"s2"⟩] ⟨none, fun i => i = 1, false, false⟩).cmds.map
      (fun i => i.cmd.Stdin) = ["s1\n", "s2\n"] ∧
    (Drive.FormatLUKSIfRequired ⟨"/dev/sdc", "", DeviceType.Unknown, false, ⟨"tok"⟩, true⟩
        [⟨"s1"⟩, ⟨"s2"⟩] ⟨none, fun _ => false, true, false⟩).cmds.map
      (fun i => i.cmd.Stdin) = ["s1\n"] := by
  have h := key_precedence ⟨"/dev/sdb", "", DeviceType.LUKS, false, ⟨"tok"⟩, false⟩
      [⟨"s1"⟩, ⟨"s2"⟩] ⟨none, fun i => i = 1, false, false⟩
      rfl rfl (by decide) (by decide)
  constructor
  · rw [h.1]
    decide
  · decide

/-- C4: FormatLUKSIfRequired is a no-op if Broken or already mapped, is
Fatal when the key list is empty, issues a format command only when
Classify succeeds and reports Unknown, sets Type to LUKS on a successful
format, and marks the drive Broken on a failed one. -/
theorem FormatLUKSIfRequired_spec (d : Drive) (keys : List Key) (env : LuksEnv) :
    (d.Broken = true →
      (d.FormatLUKSIfRequired keys env).drive = d ∧
      (d.FormatLUKSIfRequired keys env).cmds = [] ∧
      (d.FormatLUKSIfRequired keys env).fatal = false) ∧
    (d.Broken = false → d.MappedDevicePath ≠ "" →
      (d.FormatLUKSIfRequired keys env).drive = d ∧
      (d.FormatLUKSIfRequired keys env).cmds = [] ∧
      (d.FormatLUKSIfRequired keys env).fatal = false) ∧
    (d.Broken = false → d.MappedDevicePath = "" → keys = [] →
      (d.FormatLUKSIfRequired keys env).fatal = true ∧
      (d.FormatLUKSIfRequired keys env).cmds = []) ∧
    ((d.FormatLUKSIfRequired keys env).cmds ≠ [] →
      (d.Classify env).2 = true ∧ (d.Classify env).1.Type' = DeviceType.Unknown) ∧
    (d.Broken = false → d.MappedDevicePath = "" → ∀ k rest, keys = k :: rest →
      (d.Classify env).2 = true → (d.Classify env).1.Type' = DeviceType.Unknown →
      (env.luksFormatOk = true →
        (d.FormatLUKSIfRequired keys env).drive.Type' = DeviceType.LUKS) ∧
      (env.luksFormatOk = false →
        (d.FormatLUKSIfRequired keys env).drive.Broken = true) ∧
      (d.FormatLUKSIfRequired keys env).cmds =
        [⟨⟨k.Secret ++ "\n", false, false⟩,
          ["cryptsetup", "luksFormat", (d.Classify env).1.DevicePath]⟩]) := by
  have hfr := Format_result d keys env
  refine ⟨?_, ?_, ?_, ?_, ?_⟩
  · intro hb
    rw [hfr.1 hb]
    exact ⟨rfl, rfl, rfl⟩
  · intro hb hm
    rw [hfr.2.1 hb hm]
    exact ⟨rfl, rfl, rfl⟩
  · intro hb hm hk
    rw [hfr.2.2.1 hb hm hk]
    exact ⟨rfl, rfl⟩
  · intro hne
    by_cases hb : d.Broken
    · rw [hfr.1 hb] at hne
      simp at hne
    · by_cases hm : d.MappedDevicePath = ""
      · cases hks : keys with
        | nil =>
          rw [hfr.2.2.1 (by simpa using hb) hm hks] at hne
          simp at hne
        | cons k rest =>
          have hc4 := hfr.2.2.2 k rest hks (by simpa using hb) hm
          by_cases hc : (d.Classify env).2 = true
          · by_cases ht : (d.Classify env).1.Type' = DeviceType.Unknown
            · exact ⟨hc, ht⟩
            · rw [hc4.2.1 hc ht] at hne
              simp at hne
          · rw [hc4.1 (by simpa using hc)] at hne
            simp at hne
      · rw [hfr.2.1 (by simpa using hb) hm] at hne
        simp at hne
  · intro hb hm k rest hks hc ht
    have hc4 := (hfr.2.2.2 k rest hks hb hm).2.2 hc ht
    rw [hc4]
    refine ⟨?_, ?_, rfl⟩
    · intro hfmt
      simp [hfmt]
    · intro hfmt
      simp [hfmt, Drive.MarkAsBroken]

/-- Witness for FormatLUKSIfRequired_spec: a fresh unknown drive with one
key and a succeeding format command ends with Type LUKS. -/
theorem FormatLUKSIfRequired_spec_witness :
    (Drive.FormatLUKSIfRequired ⟨"/dev/sdd", "", DeviceType.NotScanned, false, ⟨"tok"⟩, true⟩
        [⟨"s1"⟩] ⟨some ContentKind.Unknown, fun _ => false, true, false⟩).drive.Type' =
      DeviceType.LUKS := by
  have h := (FormatLUKSIfRequired_spec
      ⟨"/dev/sdd", "", DeviceType.NotScanned, false, ⟨"tok"⟩, true⟩
      [⟨"s1"⟩] ⟨some ContentKind.Unknown, fun _ => false, true, false⟩).2.2.2.2
      rfl rfl ⟨"s1"⟩ [] rfl (by decide) (by decide)
  exact h.1 rfl

set_option maxRecDepth 8192 in
/-- C6 (demonstration of the defect): when every key is rejected the error
that OpenLUKS logs is the constant string with unfilled %s verbs, because
the source passes no arguments for them; the message does not contain the
device path of the drive being opened (/dev/sdb here). -/
theorem OpenLUKS_error_omits_device_path :
    (Drive.OpenLUKS ⟨"/dev/sdb", "", DeviceType.LUKS, false, ⟨"tok"⟩, false⟩
        [⟨"k1"⟩] ⟨none, fun _ => false, false, false⟩).logs.filter
      (fun e => decide (e.level = LogLevel.LogError)) =
      [⟨LogLevel.LogError, OpenLUKSKeysRejectedMsg⟩] ∧
    ¬ ("/dev/sdb".toList <:+: OpenLUKSKeysRejectedMsg.toList) := by
  constructor
  · decide
  · decide

/-- On the LUKS trial path, the commands of OpenLUKS are exactly those of
the key-trial loop. -/
theorem OpenLUKS_cmds_eq (d : Drive) (keys : List Key) (env : LuksEnv) (d1 : Drive)
    (hcl : d.Classify env = (d1, true)) (hb : d.Broken = false)
    (hm : d.MappedDevicePath = "") (ht : d1.Type' = DeviceType.LUKS) :
    (d.OpenLUKS keys env).cmds =
      (tryKeysAux env d1.DevicePath d1.TemporaryMount.Name keys 0).2.1 := by
  by_cases hs : (tryKeysAux env d1.DevicePath d1.TemporaryMount.Name keys 0).2.2 <;>
    simp [Drive.OpenLUKS, hb, hm, hcl, ht, hs]

/-- C9: two runs of OpenLUKS or FormatLUKSIfRequired that differ only in
the configured key secrets produce identical argv lists for every issued
command (key material reaches the commands only through piped stdin), and
every container-open invocation has SkipLog set, suppressing its own
argument logging. -/
theorem secrets_not_in_argv (d : Drive) (env : LuksEnv) (keys1 keys2 : List Key)
    (hlen : keys1.length = keys2.length) :
    ((d.OpenLUKS keys1 env).cmds.map (fun i => i.argv) =
      (d.OpenLUKS keys2 env).cmds.map (fun i => i.argv)) ∧
    ((d.FormatLUKSIfRequired keys1 env).cmds.map (fun i => i.argv) =
      (d.FormatLUKSIfRequired keys2 env).cmds.map (fun i => i.argv)) ∧
    (∀ inv ∈ (d.OpenLUKS keys1 env).cmds, inv.cmd.SkipLog = true) := by
  rcases hcl : d.Classify env with ⟨d1, ok⟩
  refine ⟨?_, ?_, ?_⟩
  · by_cases hb : d.Broken
    · simp [Drive.OpenLUKS, hb]
    · by_cases hm : d.MappedDevicePath = ""
      · rcases Bool.eq_false_or_eq_true ok with hok | hok
        · rw [hok] at hcl
          by_cases ht : d1.Type' = DeviceType.LUKS
          · rw [OpenLUKS_cmds_eq d keys1 env d1 hcl (by simpa using hb) hm ht,
              OpenLUKS_cmds_eq d keys2 env d1 hcl (by simpa using hb) hm ht,
              tryKeysAux_argv, tryKeysAux_argv,
              triedCount_length_congr env keys1 keys2 0 hlen]
          · simp [Drive.OpenLUKS, hb, hm, hcl, ht]
        · rw [hok] at hcl
          simp [Drive.OpenLUKS, hb, hm, hcl]
      · simp [Drive.OpenLUKS, hb, hm]
  · have h1 := Format_result d keys1 env
    have h2 := Format_result d keys2 env
    by_cases hb : d.Broken
    · rw [h1.1 hb, h2.1 hb]
    · by_cases hm : d.MappedDevicePath = ""
      · rcases keys1 with _ | ⟨k1, r1⟩
        · rcases keys2 with _ | ⟨k2, r2⟩
          · rw [h1.2.2.1 (by simpa using hb) hm rfl]
          · simp at hlen
        · rcases keys2 with _ | ⟨k2, r2⟩
          · simp at hlen
          · have c1 := h1.2.2.2 k1 r1 rfl (by simpa using hb) hm
            have c2 := h2.2.2.2 k2 r2 rfl (by simpa using hb) hm
            by_cases hc : (d.Classify env).2 = true
            · by_cases ht : (d.Classify env).1.Type' = DeviceType.Unknown
              · rw [c1.2.2 hc ht, c2.2.2 hc ht]
                simp
              · rw [c1.2.1 hc ht, c2.2.1 hc ht]
            · rw [c1.1 (by simpa using hc), c2.1 (by simpa using hc)]
      · rw [h1.2.1 (by simpa using hb) hm, h2.2.1 (by simpa using hb) hm]
  · intro inv hi
    by_cases hb : d.Broken
    · simp [Drive.OpenLUKS, hb] at hi
    · by_cases hm : d.MappedDevicePath = ""
      · rcases Bool.eq_false_or_eq_true ok with hok | hok
        · rw [hok] at hcl
          by_cases ht : d1.Type' = DeviceType.LUKS
          · rw [OpenLUKS_cmds_eq d keys1 env d1 hcl (by simpa using hb) hm ht] at hi
            exact tryKeysAux_skipLog env d1.DevicePath d1.TemporaryMount.Name keys1 0 inv hi
          · simp [Drive.OpenLUKS, hb, hm, hcl, ht] at hi
        · rw [hok] at hcl
          simp [Drive.OpenLUKS, hb, hm, hcl] at hi
      · simp [Drive.OpenLUKS, hb, hm] at hi

/-- Witness for secrets_not_in_argv: two single-key configurations with
different secrets issue commands with the same argv. -/
theorem secrets_not_in_argv_witness :
    (Drive.OpenLUKS ⟨"/dev/sdb", "", DeviceType.LUKS, false, ⟨"tok"⟩, false⟩
        [⟨"secretA"⟩] ⟨none, fun _ => true, false, false⟩).cmds.map (fun i => i.argv) =
      (Drive.OpenLUKS ⟨"/dev/sdb", "", DeviceType.LUKS, false, ⟨"tok"⟩, false⟩
        [⟨"secretB"⟩] ⟨none, fun _ => true, false, false⟩).cmds.map (fun i => i.argv) :=
  (secrets_not_in_argv ⟨"/dev/sdb", "", DeviceType.LUKS, false, ⟨"tok"⟩, false⟩
    ⟨none, fun _ => true, false, false⟩ [⟨"secretA"⟩] [⟨"secretB"⟩] rfl).1

/-- The mount loop attempts every drive path, in order, regardless of
failures. -/
theorem mountLoop_attempts (env : MainEnv) :
    ∀ ps : List String, (mountLoop env ps).1 = ps.map (fun p => "/" ++ p)
  | [] => rfl
  | p :: rest => by
    cases hr : env.mountDevice ("/" ++ p) <;>
      simp [mountLoop, hr, mountLoop_attempts env rest]

/-- The mount loop's failure flag is set exactly when it logged an
error. -/
theorem mountLoop_flag_iff (env : MainEnv) :
    ∀ ps : List String,
      (mountLoop env ps).2.2.2 = true ↔
        ∃ e ∈ (mountLoop env ps).2.2.1, e.level = LogLevel.LogError
  | [] => by simp [mountLoop]
  | p :: rest => by
    cases hr : env.mountDevice ("/" ++ p) with
    | error e => simp [mountLoop, hr]
    | ok mp => simp [mountLoop, hr, mountLoop_flag_iff env rest]

/-- The final-mount loop attempts every pair, in order, regardless of
failures. -/
theorem finalLoop_attempts (env : MainEnv) :
    ∀ ps : List (String × String), (finalLoop env ps).1 = ps
  | [] => rfl
  | (sid, dev) :: rest => by
    cases hr : env.finalMount dev sid <;>
      simp [finalLoop, hr, finalLoop_attempts env rest]

/-- The final-mount loop's failure flag is set exactly when it logged an
error. -/
theorem finalLoop_flag_iff (env : MainEnv) :
    ∀ ps : List (String × String),
      (finalLoop env ps).2.2 = true ↔
        ∃ e ∈ (finalLoop env ps).2.1, e.level = LogLevel.LogError
  | [] => by simp [finalLoop]
  | (sid, dev) :: rest => by
    cases hr : env.finalMount dev sid with
    | error e => simp [finalLoop, hr]
    | ok u => simp [finalLoop, hr, finalLoop_flag_iff env rest]

/-- C5: in a reconciliation pass whose mount-table rescan does not fail,
every drive path is passed to MountDevice and every (swiftID, device)
pair to ExecuteFinalMount regardless of earlier per-drive failures, the
readiness marker /srv/node/ready is touched regardless of per-drive
failures, and the exit status is nonzero exactly when some stage logged
an Error during the run. -/
theorem mainPass_spec (env : MainEnv) (hres : env.rescan = Except.ok ()) :
    (mainPass env).mountAttempts = env.drivePaths.map (fun p => "/" ++ p) ∧
    (mainPass env).finalAttempts = env.mountsByID ∧
    (mainPass env).touched = true ∧
    ((mainPass env).exitCode ≠ some 0 ↔
      ∃ e ∈ (mainPass env).logs, e.level = LogLevel.LogError) := by
  have hma := mountLoop_attempts env env.drivePaths
  have hmf := mountLoop_flag_iff env env.drivePaths
  have hfa := finalLoop_attempts env env.mountsByID
  have hff := finalLoop_flag_iff env env.mountsByID
  refine ⟨?_, ?_, ?_, ?_⟩
  · simp [mainPass, hres, hma]
  · simp [mainPass, hres, hfa]
  · simp [mainPass, hres]
  · rcases htouch : env.touch with te | tu <;>
      cases hA : (mountLoop env env.drivePaths).2.2.2 <;>
        cases hC : (finalLoop env env.mountsByID).2.2 <;>
          cases hB : env.scanFailed <;>
            rw [hA] at hmf <;> rw [hC] at hff <;> simp at hmf hff <;>
              simp [mainPass, hres, htouch, hA, hB, hC, hmf, hff] <;>
              first
                | (obtain ⟨e, he, hl⟩ := hmf
                   refine ⟨e, ?_, hl⟩
                   simp [he])
                | (obtain ⟨e, he, hl⟩ := hff
                   refine ⟨e, ?_, hl⟩
                   simp [he])
                | (refine ⟨⟨LogLevel.LogError, "touch /srv/node/ready: " ++ te⟩, ?_, rfl⟩
                   simp)
                | (refine ⟨⟨LogLevel.LogError, "swift-id collision detected"⟩, ?_, rfl⟩
                   simp)
                | (intro x hx
                   rcases hx with h | h
                   exacts [hmf x h, hff x h])

/-- Witness for mainPass_spec: one drive whose mount fails: the readiness
marker is still touched and the exit status is nonzero. -/
theorem mainPass_spec_witness :
    (mainPass ⟨["sda"], fun _ => Except.error "mount failed", Except.ok (),
        [("swift1", "/dev/mapper/a")], false, fun _ _ => Except.ok (),
        Except.ok ()⟩).touched = true ∧
    (mainPass ⟨["sda"], fun _ => Except.error "mount failed", Except.ok (),
        [("swift1", "/dev/mapper/a")], false, fun _ _ => Except.ok (),
        Except.ok ()⟩).exitCode ≠ some 0 := by
  have h := mainPass_spec ⟨["sda"], fun _ => Except.error "mount failed", Except.ok (),
      [("swift1", "/dev/mapper/a")], false, fun _ _ => Except.ok (), Except.ok ()⟩ rfl
  exact ⟨h.2.2.1, h.2.2.2.mpr (by decide)⟩

/-- The mapping names of a list of dmsetup output lines. -/
def listedNamesL (lines : List String) : List String :=
  lines.filterMap fun l => (goFields l).head?

theorem mapLookup_mapInsert (m : List (String × String)) (k v k' : String) :
    mapLookup (mapInsert m k v) k' = if k' = k then some v else mapLookup m k' := by
  induction m with
  | nil =>
    by_cases h : k' = k
    · simp [mapInsert, mapLookup, List.find?, h]
    · have h2 : ¬ k = k' := fun hc => h hc.symm
      simp [mapInsert, mapLookup, List.find?, h, h2]
  | cons q rest ih =>
    by_cases hq : q.1 = k
    · have h1 : mapInsert (q :: rest) k v = mapInsert rest k v := by
        simp [mapInsert, List.filter_cons, hq]
      rw [h1, ih]
      by_cases hk : k' = k
      · simp [hk]
      · have hqk : ¬ q.1 = k' := by
          intro hc
          rw [hq] at hc
          exact hk hc.symm
        have e2 : mapLookup (q :: rest) k' = mapLookup rest k' := by
          simp [mapLookup, List.find?, hqk]
        rw [if_neg hk, if_neg hk, e2]
    · have h1 : mapInsert (q :: rest) k v = q :: mapInsert rest k v := by
        simp [mapInsert, List.filter_cons, hq]
      rw [h1]
      by_cases hq' : q.1 = k'
      · have hk : ¬ k' = k := by
          intro hc
          rw [← hq'] at hc
          exact hq hc
        have e1 : mapLookup (q :: mapInsert rest k v) k' = some q.2 := by
          simp [mapLookup, List.find?, hq']
        have e2 : mapLookup (q :: rest) k' = some q.2 := by
          simp [mapLookup, List.find?, hq']
        rw [e1, if_neg hk, e2]
      · have e1 : mapLookup (q :: mapInsert rest k v) k' =
            mapLookup (mapInsert rest k v) k' := by
          simp [mapLookup, List.find?, hq']
        have e2 : mapLookup (q :: rest) k' = mapLookup rest k' := by
          simp [mapLookup, List.find?, hq']
        rw [e1, e2, ih]

theorem mem_mapInsert (m : List (String × String)) (k v : String) (e : String × String)
    (h : e ∈ mapInsert m k v) : e ∈ m ∨ e = (k, v) := by
  simp [mapInsert] at h
  rcases h with ⟨h1, _⟩ | h2
  · exact Or.inl h1
  · exact Or.inr (by rw [h2])

theorem scanLines_none_iff (env : ScanEnv) :
    ∀ (lines : List String) (acc : List (String × String)),
      (scanLines env acc lines).1 = none ↔
        ∃ n ∈ listedNamesL lines, getBackingDevicePath env n = none
  | [], acc => by simp [scanLines, listedNamesL]
  | line :: rest, acc => by
    cases hf : (goFields line).head? with
    | none =>
      have ih := scanLines_none_iff env rest acc
      rw [show scanLines env acc (line :: rest) = scanLines env acc rest by
        simp [scanLines, hf]]
      rw [ih]
      simp [listedNamesL, List.filterMap_cons, hf]
    | some n =>
      cases hg : getBackingDevicePath env n with
      | none =>
        simp [scanLines, hf, hg, listedNamesL, List.filterMap_cons]
      | some p =>
        have ih := scanLines_none_iff env rest (mapInsert acc p n)
        simp [scanLines, hf, hg, listedNamesL, List.filterMap_cons] at *
        rw [ih]

theorem listedNamesL_cons_none (line : String) (rest : List String)
    (hf : (goFields line).head? = none) :
    listedNamesL (line :: rest) = listedNamesL rest := by
  simp [listedNamesL, List.filterMap_cons, hf]

theorem listedNamesL_cons_some (line : String) (rest : List String) (n : String)
    (hf : (goFields line).head? = some n) :
    listedNamesL (line :: rest) = n :: listedNamesL rest := by
  simp [listedNamesL, List.filterMap_cons, hf]

theorem scanLines_mem (env : ScanEnv) :
    ∀ (lines : List String) (acc m : List (String × String)),
      (scanLines env acc lines).1 = some m →
      ∀ e ∈ m, e ∈ acc ∨
        (e.2 ∈ listedNamesL lines ∧ getBackingDevicePath env e.2 = some e.1)
  | [], acc, m => by
    intro h e he
    simp [scanLines] at h
    rw [h]
    exact Or.inl he
  | line :: rest, acc, m => by
    intro h e he
    cases hf : (goFields line).head? with
    | none =>
      have hh : (scanLines env acc rest).1 = some m := by
        simpa [scanLines, hf] using h
      have ih := scanLines_mem env rest acc m hh e he
      rcases ih with hacc | ⟨hn, hfd⟩
      · exact Or.inl hacc
      · refine Or.inr ⟨?_, hfd⟩
        rw [listedNamesL_cons_none line rest hf]
        exact hn
    | some n =>
      cases hg : getBackingDevicePath env n with
      | none =>
        rw [show (scanLines env acc (line :: rest)).1 = none by
          simp [scanLines, hf, hg]] at h
        exact absurd h (by simp)
      | some p =>
        have hh : (scanLines env (mapInsert acc p n) rest).1 = some m := by
          simpa [scanLines, hf, hg] using h
        have ih := scanLines_mem env rest (mapInsert acc p n) m hh e he
        rcases ih with hacc | ⟨hn, hfd⟩
        · rcases mem_mapInsert acc p n e hacc with ha | hpn
          · exact Or.inl ha
          · refine Or.inr ⟨?_, ?_⟩
            · rw [hpn, listedNamesL_cons_some line rest n hf]
              simp
            · rw [hpn]
              simpa using hg
        · refine Or.inr ⟨?_, hfd⟩
          rw [listedNamesL_cons_some line rest n hf]
          exact List.mem_cons_of_mem n hn

theorem scanLines_lookup_mono (env : ScanEnv) :
    ∀ (lines : List String) (acc m : List (String × String)),
      (scanLines env acc lines).1 = some m →
      ∀ k, (mapLookup acc k).isSome = true → (mapLookup m k).isSome = true
  | [], acc, m => by
    intro h k hk
    simp [scanLines] at h
    rw [← h]
    exact hk
  | line :: rest, acc, m => by
    intro h k hk
    cases hf : (goFields line).head? with
    | none =>
      have hh : (scanLines env acc rest).1 = some m := by
        simpa [scanLines, hf] using h
      exact scanLines_lookup_mono env rest acc m hh k hk
    | some n =>
      cases hg : getBackingDevicePath env n with
      | none =>
        rw [show (scanLines env acc (line :: rest)).1 = none by
          simp [scanLines, hf, hg]] at h
        exact absurd h (by simp)
      | some p =>
        have hh : (scanLines env (mapInsert acc p n) rest).1 = some m := by
          simpa [scanLines, hf, hg] using h
        refine scanLines_lookup_mono env rest (mapInsert acc p n) m hh k ?_
        rw [mapLookup_mapInsert]
        by_cases hkp : k = p
        · simp [hkp]
        · rw [if_neg hkp]
          exact hk

theorem scanLines_covers (env : ScanEnv) :
    ∀ (lines : List String) (acc m : List (String × String)),
      (scanLines env acc lines).1 = some m →
      ∀ n ∈ listedNamesL lines, ∃ p, getBackingDevicePath env n = some p ∧
        (mapLookup m p).isSome = true
  | [], acc, m => by
    intro _ n hn
    simp [listedNamesL] at hn
  | line :: rest, acc, m => by
    intro h n hn
    cases hf : (goFields line).head? with
    | none =>
      have hh : (scanLines env acc rest).1 = some m := by
        simpa [scanLines, hf] using h
      refine scanLines_covers env rest acc m hh n ?_
      simpa [listedNamesL, List.filterMap_cons, hf] using hn
    | some n' =>
      cases hg : getBackingDevicePath env n' with
      | none =>
        rw [show (scanLines env acc (line :: rest)).1 = none by
          simp [scanLines, hf, hg]] at h
        exact absurd h (by simp)
      | some p' =>
        have hh : (scanLines env (mapInsert acc p' n') rest).1 = some m := by
          simpa [scanLines, hf, hg] using h
        have hsplit : n = n' ∨ n ∈ listedNamesL rest := by
          simpa [listedNamesL, List.filterMap_cons, hf] using hn
        rcases hsplit with heq | hrest
        · refine ⟨p', ?_, ?_⟩
          · rw [heq]
            exact hg
          · refine scanLines_lookup_mono env rest (mapInsert acc p' n') m hh p' ?_
            rw [mapLookup_mapInsert]
            simp
        · exact scanLines_covers env rest (mapInsert acc p' n') m hh n hrest

theorem scanLines_cmds (env : ScanEnv) :
    ∀ (lines : List String) (acc m : List (String × String)),
      (scanLines env acc lines).1 = some m →
      (scanLines env acc lines).2.2 = (listedNamesL lines).map statusInv
  | [], acc, m => by
    intro _
    simp [scanLines, listedNamesL]
  | line :: rest, acc, m => by
    intro h
    cases hf : (goFields line).head? with
    | none =>
      have hh : (scanLines env acc rest).1 = some m := by
        simpa [scanLines, hf] using h
      have ih := scanLines_cmds env rest acc m hh
      simp [scanLines, hf, listedNamesL, List.filterMap_cons] at *
      rw [ih]
    | some n =>
      cases hg : getBackingDevicePath env n with
      | none =>
        rw [show (scanLines env acc (line :: rest)).1 = none by
          simp [scanLines, hf, hg]] at h
        exact absurd h (by simp)
      | some p =>
        have hh : (scanLines env (mapInsert acc p n) rest).1 = some m := by
          simpa [scanLines, hf, hg] using h
        have ih := scanLines_cmds env rest (mapInsert acc p n) m hh
        simp [scanLines, hf, hg, listedNamesL, List.filterMap_cons] at *
        rw [ih]

/-- C7: ScanLUKSMappings returns the empty map on the sentinel "No
devices found" output; otherwise it queries cryptsetup status for every
mapping name listed by dmsetup and records backing device path to mapping
name as extracted from the device: line, and the process ends fatally
exactly when some listed mapping name has no device: line in its status
output. -/
theorem ScanLUKSMappings_spec (env : ScanEnv) :
    (goTrimSpace env.dmsetupOut = "No devices found" →
      (ScanLUKSMappings env).mappings = some [] ∧
      (ScanLUKSMappings env).cmds = [dmsetupInv]) ∧
    (goTrimSpace env.dmsetupOut ≠ "No devices found" →
      ((ScanLUKSMappings env).mappings = none ↔
        ∃ n ∈ listedNames env.dmsetupOut, getBackingDevicePath env n = none) ∧
      (∀ m, (ScanLUKSMappings env).mappings = some m →
        (∀ e ∈ m, e.2 ∈ listedNames env.dmsetupOut ∧
          getBackingDevicePath env e.2 = some e.1) ∧
        (∀ n ∈ listedNames env.dmsetupOut, ∃ p,
          getBackingDevicePath env n = some p ∧ (mapLookup m p).isSome = true) ∧
        (ScanLUKSMappings env).cmds =
          dmsetupInv :: (listedNames env.dmsetupOut).map statusInv)) := by
  constructor
  · intro hs
    simp [ScanLUKSMappings, hs]
  · intro hs
    have hm : (ScanLUKSMappings env).mappings =
        (scanLines env [] (splitLines env.dmsetupOut)).1 := by
      simp [ScanLUKSMappings, hs]
    have hc : (ScanLUKSMappings env).cmds =
        dmsetupInv :: (scanLines env [] (splitLines env.dmsetupOut)).2.2 := by
      simp [ScanLUKSMappings, hs]
    constructor
    · rw [hm]
      exact scanLines_none_iff env (splitLines env.dmsetupOut) []
    · intro m hsome
      rw [hm] at hsome
      refine ⟨?_, ?_, ?_⟩
      · intro e he
        have hme := scanLines_mem env (splitLines env.dmsetupOut) [] m hsome e he
        rcases hme with h0 | ⟨h1, h2⟩
        · exact absurd h0 (by simp)
        · exact ⟨h1, h2⟩
      · intro n hn
        exact scanLines_covers env (splitLines env.dmsetupOut) [] m hsome n hn
      · rw [hc, scanLines_cmds env (splitLines env.dmsetupOut) [] m hsome]
        rfl

/-- Witness for ScanLUKSMappings_spec: one listed mapping cmap backed by
/dev/sdx: the scan queries dmsetup and then the status of cmap. -/
theorem ScanLUKSMappings_spec_witness :
    (ScanLUKSMappings ⟨"cmap\t(252, 0)\n", fun _ => "  device: /dev/sdx"⟩).cmds =
      [dmsetupInv, statusInv "cmap"] := by
  have h := (ScanLUKSMappings_spec
      ⟨"cmap\t(252, 0)\n", fun _ => "  device: /dev/sdx"⟩).2 (by decide)
  have h2 := (h.2 [("/dev/sdx", "cmap")] (by decide)).2.2
  rw [h2]
  decide

end SwiftStorage
